import Mathlib

/-!
Shallow embedding of the client-side transaction analytics engine of
`src/frontend/src/D3Dashboard.jsx`: the record normalizer, the aggregation
rollups, the ranking selector, the anomaly detector and the acquisition
(retry) state machine, together with proofs of the specification claims.

Amounts are modelled as exact rationals; the JavaScript `Number` coercion
outcomes that the normalizer inspects (`NaN`, infinities) are modelled by an
explicit sum type.  The results delivered by the browser environment
(`new Date(ts)` parsing, `+amount` coercion) are inputs of the model.
-/

namespace FinanceDashboard

/-- Outcome of the JavaScript numeric coercion `+d.amount`: either `NaN`,
an infinity, or a finite value (modelled exactly as a rational). -/
inductive JSNum where
  | nan
  | posInf
  | negInf
  | num (q : ℚ)
deriving DecidableEq

/-- JavaScript `isNaN` on a coerced number. -/
def JSNum.isNaN : JSNum → Bool
  | .nan => true
  | _ => false

/-- JavaScript `Number.isFinite` on a coerced number. -/
def JSNum.isFinite : JSNum → Bool
  | .num _ => true
  | _ => false

/-- The `{hour, minute}` object built by `parseTimestamp` from a valid date. -/
structure TimeOfDay where
  hour : ℕ
  minute : ℕ
deriving DecidableEq

/-- The value `parseTimestamp` returns for a parseable timestamp: the
calendar day (`new Date(y, m, d)`, modelled as an abstract day index) and the
time of day.  An unparseable timestamp is modelled as `none` upstream. -/
structure ParsedTime where
  dateOnly : ℤ
  time : TimeOfDay
deriving DecidableEq

/-- `timeBucket` from the source: maps the `{hour, minute}` object (or `null`)
to one of the four fixed labels, with the `"Unknown"` fallback for `null`. -/
def timeBucket : Option TimeOfDay → String
  | none => "Unknown"
  | some t =>
    if t.hour < 6 then "Night (00–06)"
    else if t.hour < 12 then "Morning (06–12)"
    else if t.hour < 18 then "Afternoon (12–18)"
    else "Evening (18–24)"

/-- The fixed display order of the four buckets, as in `buildTimeBuckets`. -/
def bucketOrder : List String :=
  ["Night (00–06)", "Morning (06–12)", "Afternoon (12–18)", "Evening (18–24)"]

/-- A raw record as it reaches `initializeDashboard`.  The two
environment-dependent observations the normalizer makes about a raw record
are carried directly: the result of `new Date(d.timestamp)` parsing
(`none` = invalid date) and the result of the `+d.amount` coercion. -/
structure RawRecord where
  transaction_id : ℕ
  parsedTimestamp : Option ParsedTime
  amountCoerced : JSNum
  category : Option String
  merchant : Option String
deriving DecidableEq

/-- JavaScript `x || dflt` on an optional string (both `undefined` and the
empty string are falsy). -/
def jsOrDefault (s : Option String) (dflt : String) : String :=
  match s with
  | none => dflt
  | some v => if v = "" then dflt else v

/-- A record after the mutating `forEach` of `initializeDashboard` has added
the derived fields (`parsedTime`, `dateOnly`, `timeOnly`, `amountNum`,
defaulted `category`/`merchant`, `timeBucket`). -/
structure AugRecord where
  transaction_id : ℕ
  parsedTime : Option ParsedTime
  dateOnly : Option ℤ
  timeOnly : Option TimeOfDay
  amountNum : JSNum
  category : String
  merchant : String
  timeBucket : String
deriving DecidableEq

/-- The field additions performed on each record by `initializeDashboard`. -/
def augmentRecord (d : RawRecord) : AugRecord :=
  { transaction_id := d.transaction_id
    parsedTime := d.parsedTimestamp
    dateOnly := d.parsedTimestamp.map ParsedTime.dateOnly
    timeOnly := d.parsedTimestamp.map ParsedTime.time
    amountNum := d.amountCoerced
    category := jsOrDefault d.category "Other"
    merchant := jsOrDefault d.merchant ""
    timeBucket := FinanceDashboard.timeBucket (d.parsedTimestamp.map ParsedTime.time) }

/-- The normalization step of `initializeDashboard`: augment every record,
then keep `cleanData = rawData.filter(d => !isNaN(d.amountNum) && d.parsedTime)`. -/
def normalize (raw : List RawRecord) : List AugRecord :=
  (raw.map augmentRecord).filter (fun d => !d.amountNum.isNaN && d.parsedTime.isSome)

/-- A canonical record (the spec's §3 shape): finite amount, valid instant.
Every derived view is computed from a list of these. -/
structure CanonicalRecord where
  transaction_id : ℕ
  dateOnly : ℤ
  hour : ℕ
  minute : ℕ
  amount : ℚ
  category : String
  merchant : String
deriving DecidableEq

/-- The `timeBucket` field carried by a canonical record: `initializeDashboard`
sets it to `timeBucket(d.timeOnly)`, and a canonical record has a non-null
time object. -/
def CanonicalRecord.timeBucket (d : CanonicalRecord) : String :=
  FinanceDashboard.timeBucket (some ⟨d.hour, d.minute⟩)

/-!
### Stable sorting

`Array.prototype.sort` with a numeric-key comparator is a stable sort: its
result is the unique reordering that is sorted by the key and breaks ties by
the original array position.  We realize it as sorting index/value pairs by
the lexicographic (key, original index) order.
-/

/-- The lexicographic (key, then original index) order that characterizes a
stable sort by `key`. -/
def keyIdxLe {α : Type} {κ : Type} [LinearOrder κ] (key : α → κ) (p q : ℕ × α) : Prop :=
  key p.2 < key q.2 ∨ (key p.2 = key q.2 ∧ p.1 ≤ q.1)

instance {α κ : Type} [LinearOrder κ] (key : α → κ) : DecidableRel (keyIdxLe key) := by
  intro p q
  unfold keyIdxLe
  infer_instance

instance {α κ : Type} [LinearOrder κ] (key : α → κ) : IsTotal (ℕ × α) (keyIdxLe key) := by
  constructor
  intro p q
  rcases lt_trichotomy (key p.2) (key q.2) with h | h | h
  · exact Or.inl (Or.inl h)
  · rcases Nat.le_total p.1 q.1 with hn | hn
    · exact Or.inl (Or.inr ⟨h, hn⟩)
    · exact Or.inr (Or.inr ⟨h.symm, hn⟩)
  · exact Or.inr (Or.inl h)

instance {α κ : Type} [LinearOrder κ] (key : α → κ) : IsTrans (ℕ × α) (keyIdxLe key) := by
  constructor
  rintro p q u (h₁ | ⟨h₁, h₁n⟩) (h₂ | ⟨h₂, h₂n⟩)
  · exact Or.inl (h₁.trans h₂)
  · exact Or.inl (h₂ ▸ h₁)
  · exact Or.inl (h₁ ▸ h₂)
  · exact Or.inr ⟨h₁.trans h₂, h₁n.trans h₂n⟩

/-- The sorted index/value pairs underlying a stable JavaScript sort by `key`. -/
def rankedPairs {α κ : Type} [LinearOrder κ] (key : α → κ) (xs : List α) : List (ℕ × α) :=
  List.insertionSort (keyIdxLe key) xs.enum

/-- Stable sort by an ascending numeric key, as produced by
`array.sort((a, b) => ascending(key(a), key(b)))`.  A descending comparator is
the same sort on the negated key. -/
def jsStableSortBy {α κ : Type} [LinearOrder κ] (key : α → κ) (xs : List α) : List α :=
  (rankedPairs key xs).map Prod.snd

/-!
### Aggregation engine (`buildPie`, `buildLine`, `buildTimeBuckets`, `buildScatter`)
-/

/-- The distinct grouping keys of a list in first-encounter order, as produced
by `d3.rollups` / a JavaScript `InternMap` (insertion order). -/
def firstKeys {α κ : Type} [DecidableEq κ] (key : α → κ) (data : List α) : List κ :=
  data.foldl (fun acc d => if key d ∈ acc then acc else acc ++ [key d]) []

/-- `d3.rollups(data, v => d3.sum(v, value), key)`: one `(key, sum)` entry per
distinct key in first-encounter order, summing in traversal order. -/
def rollupsBy {α κ : Type} [DecidableEq κ] (key : α → κ) (value : α → ℚ)
    (data : List α) : List (κ × ℚ) :=
  (firstKeys key data).map
    (fun k => (k, ((data.filter (fun d => decide (key d = k))).map value).sum))

/-- `buildPie`: the category rollup and the grand total over all categories. -/
def buildPie (data : List FinanceDashboard.CanonicalRecord) : List (String × ℚ) × ℚ :=
  let byCat := rollupsBy CanonicalRecord.category CanonicalRecord.amount data
  (byCat, (byCat.map Prod.snd).sum)

/-- `buildLine`: the daily rollup, grouped by the numeric `dateOnly` value and
sorted ascending by date. -/
def buildLine (data : List FinanceDashboard.CanonicalRecord) : List (ℤ × ℚ) :=
  jsStableSortBy (fun e => e.1)
    (rollupsBy CanonicalRecord.dateOnly CanonicalRecord.amount data)

/-- JavaScript `Array.prototype.indexOf` on a list of strings (`-1` if absent). -/
def jsIndexOf (l : List String) (s : String) : ℤ :=
  match l.findIdx? (fun x => x == s) with
  | some i => (i : ℤ)
  | none => -1

/-- `buildTimeBuckets`: rollup by the `timeBucket` label, then sort by the
fixed display order via `order.indexOf`. -/
def buildTimeBuckets (data : List FinanceDashboard.CanonicalRecord) : List (String × ℚ) :=
  jsStableSortBy (fun e => jsIndexOf bucketOrder e.1)
    (rollupsBy CanonicalRecord.timeBucket CanonicalRecord.amount data)

/-- `buildScatter`'s category domain:
`Array.from(new Set(data.map(d => d.category))).sort()` — the distinct
categories in first-encounter order, sorted lexicographically. -/
def buildScatterCategories (data : List FinanceDashboard.CanonicalRecord) : List String :=
  List.insertionSort (fun a b => a ≤ b) (firstKeys CanonicalRecord.category data)

/-- The scatter point set: the canonical set, optionally filtered to one
category by exact match (`renderScatter`). -/
def scatterPoints (filterCat : Option String) (data : List FinanceDashboard.CanonicalRecord) :
    List FinanceDashboard.CanonicalRecord :=
  match filterCat with
  | none => data
  | some c => data.filter (fun d => decide (d.category = c))

/-!
### Ranking selector (`buildTopAndLowTables`)
-/

/-- The table toggle of the dashboard. -/
inductive TableFilter where
  | highest
  | lowest
deriving DecidableEq

/-- `const sortedAsc = [...data].sort((a, b) => d3.ascending(a.amountNum, b.amountNum))`. -/
def sortedAscOf (data : List FinanceDashboard.CanonicalRecord) :
    List FinanceDashboard.CanonicalRecord :=
  jsStableSortBy (fun d => d.amount) data

/-- `const sortedDesc = [...data].sort((a, b) => d3.descending(a.amountNum, b.amountNum))`:
a descending stable sort is the ascending stable sort on the negated amount. -/
def sortedDescOf (data : List FinanceDashboard.CanonicalRecord) :
    List FinanceDashboard.CanonicalRecord :=
  jsStableSortBy (fun d => -d.amount) data

/-- `buildTopAndLowTables`: the first 10 entries of the descending (Highest)
or ascending (Lowest) stable sort by amount. -/
def buildTopAndLowTables (filt : TableFilter) (data : List FinanceDashboard.CanonicalRecord) :
    List FinanceDashboard.CanonicalRecord :=
  match filt with
  | .highest => (sortedDescOf data).take 10
  | .lowest => (sortedAscOf data).take 10

/-!
### Anomaly detector (`buildAnomalies`)
-/

/-- The amounts of a canonical record list, in order. -/
def amounts (data : List FinanceDashboard.CanonicalRecord) : List ℚ :=
  data.map CanonicalRecord.amount

/-- `d3.mean(data, d => d.amountNum)` (meaningful for nonempty data). -/
def meanAmount (data : List FinanceDashboard.CanonicalRecord) : ℚ :=
  (amounts data).sum / (data.length : ℚ)

/-- The sample variance of the amounts.  `d3.deviation` is its square root
(undefined for fewer than two records, which `|| 0` maps to a zero standard
deviation; a zero variance likewise gives a zero standard deviation). -/
def sampleVariance (data : List FinanceDashboard.CanonicalRecord) : ℚ :=
  if data.length < 2 then 0
  else ((amounts data).map (fun x => (x - meanAmount data) ^ 2)).sum / ((data.length : ℚ) - 1)

/-- The comparison `d.amountNum > threshold` with
`threshold = mean + 3 * sd`, carried out in exact rational arithmetic: over
the reals, `a > m + 3·√v` (with `v ≥ 0`) holds iff `a > m` and
`(a − m)² > 9·v`.  The equivalence is proved in `exceedsThreshold_iff`. -/
def exceedsThreshold (data : List FinanceDashboard.CanonicalRecord)
    (d : FinanceDashboard.CanonicalRecord) : Bool :=
  decide (meanAmount data < d.amount) &&
  decide (9 * sampleVariance data < (d.amount - meanAmount data) ^ 2)

/-- The anomaly view model: the full descending list of outliers, the
reported count, and the `top` slice of at most three entries. -/
structure AnomalyResult where
  anomalies : List FinanceDashboard.CanonicalRecord
  count : ℕ
  top : List FinanceDashboard.CanonicalRecord
deriving DecidableEq

/-- `buildAnomalies`: filter the records whose amount exceeds
`mean + 3 * sd`, sort them descending by amount (stable), report the full
count and display at most the first three. -/
def buildAnomalies (data : List FinanceDashboard.CanonicalRecord) : AnomalyResult :=
  let anomalies := jsStableSortBy (fun d => -d.amount)
    (data.filter (exceedsThreshold data))
  { anomalies := anomalies, count := anomalies.length, top := anomalies.take 3 }

/-!
### Acquisition controller

The React state of `D3Dashboard` relevant to acquisition: `data`, `loading`,
`processing`, `retryCount`, with `MAX_RETRIES = 5`.  The polling `useEffect`
schedules `fetchTransactions(true)` after `RETRY_DELAY` while
`processing && retryCount < MAX_RETRIES && data.length === 0`, and otherwise
finalizes once `retryCount >= MAX_RETRIES`.  The backend is modelled as a
function from the fetch index to the (already transformed) record list of
that response; records are abstracted by identifiers.
-/

/-- `MAX_RETRIES` from the source. -/
def MAX_RETRIES : ℕ := 5

/-- The acquisition-relevant component state. -/
structure MachineState where
  data : List ℕ
  loading : Bool
  processing : Bool
  retryCount : ℕ
deriving DecidableEq

/-- The initial mounted state (`useState([])`, `useState(true)`,
`useState(false)`, `useState(0)`). -/
def initialState : MachineState :=
  { data := [], loading := true, processing := false, retryCount := 0 }

/-- One completed `fetchTransactions(isRetry)` call returning `resp`:
the non-retry prologue resets the counter and flags, a non-empty response
installs the data (Ready), an empty response marks processing and increments
the counter on retries.  The `retryCount` read by the empty-response guard is
the value captured by the closure at call time. -/
def applyResponse (s : MachineState) (isRetry : Bool) (resp : List ℕ) : MachineState :=
  let closureCount := s.retryCount
  let s1 := if isRetry then s
    else { s with loading := true, retryCount := 0, processing := false }
  if resp ≠ [] then
    { s1 with data := resp, loading := false, processing := false }
  else if isRetry || decide (closureCount < MAX_RETRIES) then
    { s1 with processing := true, loading := false,
              retryCount := if isRetry then s1.retryCount + 1 else s1.retryCount }
  else
    { s1 with loading := false, processing := false }

/-- The polling effect's retry guard:
`processing && retryCount < MAX_RETRIES && data.length === 0`. -/
def shouldRetry (s : MachineState) : Bool :=
  s.processing && decide (s.retryCount < MAX_RETRIES) && decide (s.data = [])

/-- The polling effect's terminal branch: once the counter reaches the bound
it clears `processing` and `loading`; otherwise it leaves the state alone. -/
def settleEffect (s : MachineState) : MachineState :=
  if MAX_RETRIES ≤ s.retryCount then { s with processing := false, loading := false } else s

/-- The event loop after the initial fetch: while the polling effect asks for
a retry, perform the next fetch (recording the attempt-counter value at which
the retry was scheduled); otherwise run the effect's terminal branch and
stop.  `fuel` bounds the number of loop iterations; the claims hold for every
sufficient fuel. -/
def pollLoop (svc : ℕ → List ℕ) : ℕ → ℕ → MachineState → List ℕ → MachineState × List ℕ
  | 0, _, s, trace => (s, trace)
  | fuel + 1, idx, s, trace =>
    if shouldRetry s then
      pollLoop svc fuel (idx + 1) (applyResponse s true (svc idx)) (trace ++ [s.retryCount])
    else (settleEffect s, trace)

/-- Mount the dashboard against a backend `svc`: issue the initial
`fetchTransactions()` (response 0), then run the polling loop. -/
def runMachine (svc : ℕ → List ℕ) (fuel : ℕ) : MachineState × List ℕ :=
  pollLoop svc fuel 1 (applyResponse initialState false (svc 0)) []

/-- A backend that replies with zero records to the first five requests and
with `records` from the sixth on. -/
def svcDelayedData (records : List ℕ) (idx : ℕ) : List ℕ :=
  if idx < 5 then [] else records

/-- A backend that always replies with zero records. -/
def svcAlwaysEmpty (_ : ℕ) : List ℕ := []

/-- The Ready outcome: the records are installed and neither the loading nor
the processing affordance is shown. -/
def ReadyState (s : MachineState) (records : List ℕ) : Prop :=
  s.data = records ∧ s.loading = false ∧ s.processing = false

/-- The terminal Empty outcome: no data, no pending loading or processing. -/
def EmptyState (s : MachineState) : Prop :=
  s.data = [] ∧ s.loading = false ∧ s.processing = false

/-!
### Recompute orchestrator with explicit array state

`initializeDashboard` hands the one `cleanData` array to every builder in a
fixed order.  To express the frame property (no builder mutates the canonical
record set) the derivation sequence is modelled state-passing style: each
builder returns its view model together with the contents of the canonical
array after the call.  In the source, every in-place `sort` inside a builder
acts on a fresh array (`[...data]`, the result of `filter`, or the rollup
array), never on `cleanData` itself, which is what the returned array
reflects.
-/

/-- The view-model bundle recomputed by `initializeDashboard`. -/
structure ViewModels where
  pieRollup : List (String × ℚ)
  pieGrandTotal : ℚ
  lineRollup : List (ℤ × ℚ)
  bucketRollup : List (String × ℚ)
  scatterCategories : List String
  rankingTable : List FinanceDashboard.CanonicalRecord
  anomalyResult : AnomalyResult
deriving DecidableEq

/-- `buildPie` with the post-call canonical array: `d3.rollups` allocates a
fresh array and the legend sort mutates only that fresh array. -/
def buildPieState (data : List FinanceDashboard.CanonicalRecord) :
    (List (String × ℚ) × ℚ) × List FinanceDashboard.CanonicalRecord :=
  (buildPie data, data)

/-- `buildLine` with the post-call canonical array (`sort` acts on the fresh
rollup array). -/
def buildLineState (data : List FinanceDashboard.CanonicalRecord) :
    List (ℤ × ℚ) × List FinanceDashboard.CanonicalRecord :=
  (buildLine data, data)

/-- `buildTimeBuckets` with the post-call canonical array. -/
def buildTimeBucketsState (data : List FinanceDashboard.CanonicalRecord) :
    List (String × ℚ) × List FinanceDashboard.CanonicalRecord :=
  (buildTimeBuckets data, data)

/-- `buildScatter` with the post-call canonical array (it only maps and
filters the data). -/
def buildScatterState (data : List FinanceDashboard.CanonicalRecord) :
    List String × List FinanceDashboard.CanonicalRecord :=
  (buildScatterCategories data, data)

/-- `buildTopAndLowTables` with the post-call canonical array (both sorts act
on spread copies `[...data]`). -/
def buildTopAndLowTablesState (filt : TableFilter)
    (data : List FinanceDashboard.CanonicalRecord) :
    List FinanceDashboard.CanonicalRecord × List FinanceDashboard.CanonicalRecord :=
  (buildTopAndLowTables filt data, data)

/-- `buildAnomalies` with the post-call canonical array (`filter` allocates a
fresh array and `sort` mutates only that array). -/
def buildAnomaliesState (data : List FinanceDashboard.CanonicalRecord) :
    AnomalyResult × List FinanceDashboard.CanonicalRecord :=
  (buildAnomalies data, data)

/-- The derivation sequence of `initializeDashboard` over the canonical set,
threading the canonical array through every builder in source order. -/
def deriveViews (filt : TableFilter) (data : List FinanceDashboard.CanonicalRecord) :
    ViewModels × List FinanceDashboard.CanonicalRecord :=
  let (pie, d1) := buildPieState data
  let (line, d2) := buildLineState d1
  let (buckets, d3) := buildTimeBucketsState d2
  let (cats, d4) := buildScatterState d3
  let (table, d5) := buildTopAndLowTablesState filt d4
  let (anom, d6) := buildAnomaliesState d5
  ({ pieRollup := pie.1, pieGrandTotal := pie.2, lineRollup := line,
     bucketRollup := buckets, scatterCategories := cats, rankingTable := table,
     anomalyResult := anom }, d6)

/-!
### Concrete sample data used by counterexamples and witnesses
-/

/-- The spec's dominant-outlier example: amounts `[10, 10, 10, 10, 1000]`. -/
def c5data : List FinanceDashboard.CanonicalRecord :=
  [⟨1, 0, 9, 0, 10, "A", ""⟩, ⟨2, 0, 10, 0, 10, "A", ""⟩, ⟨3, 0, 11, 0, 10, "A", ""⟩,
   ⟨4, 0, 12, 0, 10, "A", ""⟩, ⟨5, 0, 13, 0, 1000, "A", ""⟩]

/-- The 1000-amount record of `c5data`. -/
def c5outlier : FinanceDashboard.CanonicalRecord := ⟨5, 0, 13, 0, 1000, "A", ""⟩

/-- Two records with equal amounts: a zero-variance canonical set. -/
def equalAmountsData : List FinanceDashboard.CanonicalRecord :=
  [⟨1, 0, 9, 0, 5, "A", ""⟩, ⟨2, 0, 15, 30, 5, "B", "M"⟩]

/-- A single Morning record. -/
def singleMorningData : List FinanceDashboard.CanonicalRecord :=
  [⟨1, 0, 8, 0, 5, "Food", ""⟩]

/-- Records with an amount tie, for the ranking stability witness. -/
def rankWitnessData : List FinanceDashboard.CanonicalRecord :=
  [⟨1, 0, 9, 0, 10, "A", ""⟩, ⟨2, 0, 10, 0, 25, "B", ""⟩, ⟨3, 0, 11, 0, 10, "C", ""⟩]

/-- A raw record with a valid timestamp whose amount coerces to `+Infinity`
(for example the string `"Infinity"` under the JavaScript `+` coercion). -/
def rawInfinite : RawRecord :=
  { transaction_id := 7, parsedTimestamp := some ⟨0, ⟨9, 30⟩⟩,
    amountCoerced := JSNum.posInf, category := some "Food", merchant := some "Shop" }

/-- A raw record with a valid timestamp and a finite amount. -/
def rawValid : RawRecord :=
  { transaction_id := 3, parsedTimestamp := some ⟨1, ⟨10, 15⟩⟩,
    amountCoerced := JSNum.num 7, category := none, merchant := some "Cafe" }

/-!
### Lemmas about the stable sort
-/

theorem rankedPairs_perm {α κ : Type} [LinearOrder κ] (key : α → κ) (xs : List α) :
    List.Perm (rankedPairs key xs) xs.enum :=
  List.perm_insertionSort (keyIdxLe key) xs.enum

theorem jsStableSortBy_perm {α κ : Type} [LinearOrder κ] (key : α → κ) (xs : List α) :
    List.Perm (jsStableSortBy key xs) xs := by
  have h := (rankedPairs_perm key xs).map Prod.snd
  rwa [List.enum_map_snd] at h

theorem rankedPairs_sorted {α κ : Type} [LinearOrder κ] (key : α → κ) (xs : List α) :
    List.Pairwise (keyIdxLe key) (rankedPairs key xs) :=
  List.sorted_insertionSort (keyIdxLe key) xs.enum

/-- The positions recorded in the sorted pairs are exactly the original
positions: the sorted pairs are a permutation of `xs.enum`. -/
theorem rankedPairs_tie {α κ : Type} [LinearOrder κ] (key : α → κ) (xs : List α) :
    List.Pairwise (fun p q : ℕ × α => key p.2 = key q.2 → p.1 ≤ q.1) (rankedPairs key xs) := by
  refine (rankedPairs_sorted key xs).imp ?_
  rintro p q (hlt | ⟨_, hle⟩)
  · intro heq
    exact absurd hlt (heq ▸ lt_irrefl _)
  · intro _
    exact hle

theorem jsStableSortBy_pairwise {α κ : Type} [LinearOrder κ] (key : α → κ) (xs : List α) :
    List.Pairwise (fun a b => key a ≤ key b) (jsStableSortBy key xs) := by
  unfold jsStableSortBy
  rw [List.pairwise_map]
  refine (rankedPairs_sorted key xs).imp ?_
  rintro p q (hlt | ⟨heq, _⟩)
  · exact le_of_lt hlt
  · exact le_of_eq heq

theorem jsStableSortBy_length {α κ : Type} [LinearOrder κ] (key : α → κ) (xs : List α) :
    (jsStableSortBy key xs).length = xs.length :=
  (jsStableSortBy_perm key xs).length_eq

/-- A stable sort whose input has pairwise-distinct keys returns the unique
reordering that is strictly sorted by the key. -/
theorem jsStableSortBy_eq_of_sorted_perm {α κ : Type} [LinearOrder κ] {key : α → κ}
    {xs target : List α} (hperm : List.Perm target xs)
    (hsorted : List.Pairwise (fun a b => key a < key b) target)
    (hnodup : (xs.map key).Nodup) : jsStableSortBy key xs = target := by
  haveI : IsAntisymm α (fun a b => key a < key b) :=
    ⟨fun a b h h' => absurd (h.trans h') (lt_irrefl _)⟩
  have hsortperm : List.Perm (jsStableSortBy key xs) xs := jsStableSortBy_perm key xs
  have hkeysnodup : ((jsStableSortBy key xs).map key).Nodup :=
    (hsortperm.map key).symm.nodup hnodup
  have hne : List.Pairwise (fun a b => key a ≠ key b) (jsStableSortBy key xs) :=
    List.pairwise_map.mp hkeysnodup
  have hle := jsStableSortBy_pairwise key xs
  have hstrict : List.Pairwise (fun a b => key a < key b) (jsStableSortBy key xs) :=
    (hle.and hne).imp (fun h => lt_of_le_of_ne h.1 h.2)
  exact List.eq_of_perm_of_sorted (hsortperm.trans hperm.symm) hstrict hsorted

/-!
### Lemmas about `firstKeys` (the `d3.rollups` key order)
-/

theorem mem_firstKeys_aux {α κ : Type} [DecidableEq κ] (key : α → κ) (data : List α) :
    ∀ (acc : List κ) (x : κ),
      x ∈ data.foldl (fun acc d => if key d ∈ acc then acc else acc ++ [key d]) acc ↔
        x ∈ acc ∨ x ∈ data.map key := by
  induction data with
  | nil => simp
  | cons d rest ih =>
    intro acc x
    simp only [List.foldl_cons, List.map_cons, List.mem_cons]
    rw [ih]
    by_cases h : key d ∈ acc
    · simp only [if_pos h]
      constructor
      · rintro (hx | hx)
        · exact Or.inl hx
        · exact Or.inr (Or.inr hx)
      · rintro (hx | hx | hx)
        · exact Or.inl hx
        · exact Or.inl (hx ▸ h)
        · exact Or.inr hx
    · simp only [if_neg h, List.mem_append, List.mem_singleton]
      tauto

theorem mem_firstKeys {α κ : Type} [DecidableEq κ] (key : α → κ) (data : List α) (x : κ) :
    x ∈ firstKeys key data ↔ x ∈ data.map key := by
  unfold firstKeys
  rw [mem_firstKeys_aux key data [] x]
  simp

theorem firstKeys_nodup_aux {α κ : Type} [DecidableEq κ] (key : α → κ) (data : List α) :
    ∀ acc : List κ, acc.Nodup →
      (data.foldl (fun acc d => if key d ∈ acc then acc else acc ++ [key d]) acc).Nodup := by
  induction data with
  | nil => exact fun acc h => h
  | cons d rest ih =>
    intro acc hacc
    simp only [List.foldl_cons]
    by_cases h : key d ∈ acc
    · rw [if_pos h]
      exact ih acc hacc
    · rw [if_neg h]
      refine ih _ ?_
      simp [List.nodup_append, hacc, h]

theorem firstKeys_nodup {α κ : Type} [DecidableEq κ] (key : α → κ) (data : List α) :
    (firstKeys key data).Nodup :=
  firstKeys_nodup_aux key data [] List.nodup_nil

theorem rollupsBy_map_fst {α κ : Type} [DecidableEq κ] (key : α → κ) (value : α → ℚ)
    (data : List α) : (rollupsBy key value data).map Prod.fst = firstKeys key data := by
  unfold rollupsBy
  rw [List.map_map]
  exact List.map_id _

/-!
### The time-bucket rollup characterized
-/

theorem timeBucket_some_mem (t : TimeOfDay) : timeBucket (some t) ∈ bucketOrder := by
  simp only [timeBucket, bucketOrder]
  split_ifs <;> simp

theorem timeBucket_some_ne_unknown (t : TimeOfDay) : timeBucket (some t) ≠ "Unknown" := by
  simp only [timeBucket]
  split_ifs <;> decide

theorem canonical_timeBucket_mem (d : CanonicalRecord) : d.timeBucket ∈ bucketOrder :=
  timeBucket_some_mem _

/-- The total amount of a bucket over a canonical record list. -/
def bucketTotal (data : List FinanceDashboard.CanonicalRecord) (b : String) : ℚ :=
  ((data.filter (fun d => decide (d.timeBucket = b))).map CanonicalRecord.amount).sum

/-- The reference shape of the time-bucket rollup actually produced by the
code: one entry per bucket that occurs in the data, in the fixed display
order — buckets with no records are omitted, not reported with total `0`. -/
def bucketTarget (data : List FinanceDashboard.CanonicalRecord) : List (String × ℚ) :=
  (bucketOrder.filter (fun b => decide (b ∈ data.map CanonicalRecord.timeBucket))).map
    (fun b => (b, bucketTotal data b))

theorem buildTimeBuckets_eq (data : List FinanceDashboard.CanonicalRecord) :
    buildTimeBuckets data = bucketTarget data := by
  have hlabels : List.Perm
      (bucketOrder.filter (fun b => decide (b ∈ data.map CanonicalRecord.timeBucket)))
      (firstKeys CanonicalRecord.timeBucket data) := by
    rw [List.perm_ext_iff_of_nodup (List.Nodup.filter _ (by decide)) (firstKeys_nodup _ _)]
    intro x
    rw [List.mem_filter, mem_firstKeys, decide_eq_true_eq]
    constructor
    · exact fun h => h.2
    · intro h
      refine ⟨?_, h⟩
      obtain ⟨d, _, rfl⟩ := List.mem_map.mp h
      exact canonical_timeBucket_mem d
  unfold buildTimeBuckets
  apply jsStableSortBy_eq_of_sorted_perm
  · exact hlabels.map _
  · unfold bucketTarget
    rw [List.pairwise_map]
    refine List.Pairwise.sublist (List.filter_sublist _) ?_
    have hpw : List.Pairwise
        (fun a b => jsIndexOf bucketOrder a < jsIndexOf bucketOrder b) bucketOrder := by decide
    exact hpw
  · have hmap : (rollupsBy CanonicalRecord.timeBucket CanonicalRecord.amount data).map
        (fun e => jsIndexOf bucketOrder e.1) =
        (firstKeys CanonicalRecord.timeBucket data).map (jsIndexOf bucketOrder) := by
      rw [show (fun e : String × ℚ => jsIndexOf bucketOrder e.1) =
        (jsIndexOf bucketOrder) ∘ Prod.fst from rfl, ← List.map_map, rollupsBy_map_fst]
    rw [hmap]
    have hinj : ∀ x ∈ bucketOrder, ∀ y ∈ bucketOrder,
        jsIndexOf bucketOrder x = jsIndexOf bucketOrder y → x = y := by decide
    refine List.Nodup.map_on ?_ (firstKeys_nodup _ _)
    intro x hx y hy
    have hx' := (mem_firstKeys _ _ _).mp hx
    have hy' := (mem_firstKeys _ _ _).mp hy
    obtain ⟨dx, _, rfl⟩ := List.mem_map.mp hx'
    obtain ⟨dy, _, rfl⟩ := List.mem_map.mp hy'
    exact hinj _ (canonical_timeBucket_mem dx) _ (canonical_timeBucket_mem dy)

/-!
### Lemmas about the anomaly threshold
-/

theorem sampleVariance_nonneg (data : List FinanceDashboard.CanonicalRecord) :
    0 ≤ sampleVariance data := by
  unfold sampleVariance
  split_ifs with h
  · exact le_refl 0
  · push_neg at h
    refine div_nonneg ?_ ?_
    · refine List.sum_nonneg ?_
      intro x hx
      obtain ⟨y, _, rfl⟩ := List.mem_map.mp hx
      exact sq_nonneg _
    · have h2 : (2 : ℚ) ≤ (data.length : ℚ) := by exact_mod_cast h
      linarith

/-- Over the reals, the comparison `amount > mean + 3·sd` performed by
`buildAnomalies` (with `sd = √variance`) is exactly the rational test
implemented by `exceedsThreshold`. -/
theorem exceedsThreshold_iff (data : List FinanceDashboard.CanonicalRecord)
    (d : FinanceDashboard.CanonicalRecord) :
    exceedsThreshold data d = true ↔
      ((meanAmount data : ℝ) + 3 * Real.sqrt ((sampleVariance data : ℚ) : ℝ)
        < (d.amount : ℝ)) := by
  have hv : (0 : ℝ) ≤ ((sampleVariance data : ℚ) : ℝ) := by
    exact_mod_cast sampleVariance_nonneg data
  have h9 : Real.sqrt (9 * ((sampleVariance data : ℚ) : ℝ)) =
      3 * Real.sqrt ((sampleVariance data : ℚ) : ℝ) := by
    rw [Real.sqrt_mul (by norm_num : (0:ℝ) ≤ 9)]
    rw [show (9 : ℝ) = 3 ^ 2 by norm_num, Real.sqrt_sq (by norm_num : (0:ℝ) ≤ 3)]
  unfold exceedsThreshold
  rw [Bool.and_eq_true, decide_eq_true_eq, decide_eq_true_eq]
  constructor
  · rintro ⟨h1, h2⟩
    have h1' : (meanAmount data : ℝ) < (d.amount : ℝ) := by exact_mod_cast h1
    have h2' : (9 : ℝ) * ((sampleVariance data : ℚ) : ℝ) <
        ((d.amount : ℝ) - (meanAmount data : ℝ)) ^ 2 := by
      exact_mod_cast h2
    have h3 : Real.sqrt (9 * ((sampleVariance data : ℚ) : ℝ)) <
        (d.amount : ℝ) - (meanAmount data : ℝ) :=
      (Real.sqrt_lt' (by linarith)).mpr h2'
    rw [h9] at h3
    linarith
  · intro h
    have hs : (0 : ℝ) ≤ 3 * Real.sqrt ((sampleVariance data : ℚ) : ℝ) := by
      have := Real.sqrt_nonneg ((sampleVariance data : ℚ) : ℝ)
      linarith
    have h1' : (meanAmount data : ℝ) < (d.amount : ℝ) := by linarith
    have h3 : Real.sqrt (9 * ((sampleVariance data : ℚ) : ℝ)) <
        (d.amount : ℝ) - (meanAmount data : ℝ) := by
      rw [h9]
      linarith
    have h2' := (Real.sqrt_lt' (by linarith : (0:ℝ) < (d.amount : ℝ) - (meanAmount data : ℝ))).mp h3
    constructor
    · exact_mod_cast h1'
    · have : (9 : ℚ) * sampleVariance data < ((d.amount - meanAmount data) : ℚ) ^ 2 := by
        exact_mod_cast h2'
      exact this

theorem sum_eq_zero_of_nonneg : ∀ l : List ℚ, (∀ x ∈ l, 0 ≤ x) → l.sum = 0 → ∀ x ∈ l, x = 0 := by
  intro l
  induction l with
  | nil => intro _ _ x hx; cases hx
  | cons a rest ih =>
    intro hpos hsum x hx
    have hrest : 0 ≤ rest.sum := List.sum_nonneg (fun y hy => hpos y (List.mem_cons_of_mem a hy))
    have ha : 0 ≤ a := hpos a (List.mem_cons_self a rest)
    rw [List.sum_cons] at hsum
    have ha0 : a = 0 := by linarith
    have hrest0 : rest.sum = 0 := by linarith
    rcases List.mem_cons.mp hx with rfl | hx'
    · exact ha0
    · exact ih (fun y hy => hpos y (List.mem_cons_of_mem a hy)) hrest0 x hx'

/-- With exact arithmetic, zero sample variance means every amount equals the
mean, so no record satisfies the strict threshold comparison. -/
theorem exceedsThreshold_of_var_zero (data : List FinanceDashboard.CanonicalRecord)
    (hvar : sampleVariance data = 0) :
    ∀ d ∈ data, exceedsThreshold data d = false := by
  intro d hd
  have hmean : ¬ meanAmount data < d.amount := by
    unfold sampleVariance at hvar
    split_ifs at hvar with hlen
    · -- fewer than two records
      interval_cases h : data.length
      · rw [List.length_eq_zero] at h
        subst h
        cases hd
      · obtain ⟨a, ha⟩ := List.length_eq_one.mp h
        subst ha
        rcases List.mem_singleton.mp hd with rfl
        unfold meanAmount amounts
        simp
    · -- at least two records: the sum of squared deviations is zero
      push_neg at hlen
      have hden : ((data.length : ℚ) - 1) ≠ 0 := by
        have h2 : (2 : ℚ) ≤ (data.length : ℚ) := by exact_mod_cast hlen
        intro hzero
        linarith
      have hnum : ((amounts data).map (fun x => (x - meanAmount data) ^ 2)).sum = 0 := by
        rcases div_eq_zero_iff.mp hvar with h | h
        · exact h
        · exact absurd h hden
      have hall := sum_eq_zero_of_nonneg _
        (fun x hx => by
          obtain ⟨y, _, rfl⟩ := List.mem_map.mp hx
          exact sq_nonneg _) hnum
      have hmem : (d.amount - meanAmount data) ^ 2 ∈
          ((amounts data).map (fun x => (x - meanAmount data) ^ 2)) := by
        refine List.mem_map_of_mem _ ?_
        exact List.mem_map_of_mem _ hd
      have hzero := hall _ hmem
      have : d.amount - meanAmount data = 0 := by
        have := sq_eq_zero_iff.mp hzero
        exact this
      intro hlt
      rw [sub_eq_zero] at this
      rw [this] at hlt
      exact lt_irrefl _ hlt
  unfold exceedsThreshold
  simp [hmean]

/-!
### Claim theorems
-/

/-- C2: started in Idle against a service that returns zero records on the
first 5 responses and a non-empty list on the next, the acquisition machine
reaches `Ready` carrying those records and the attempt counter takes the
values `0, 1, 2, 3, 4` across the retries before success; against a service
that always returns zero records it reaches the terminal `Empty` state after
exactly `MAX_RETRIES = 5` retries and schedules no further retry.  Both hold
for every sufficient loop fuel, so the outcomes are the machine's terminal
behaviour. -/
theorem acquisition_controller_spec (records : List ℕ) (hne : records ≠ [])
    (fuel : ℕ) (hfuel : 6 ≤ fuel) :
    (ReadyState (runMachine (svcDelayedData records) fuel).1 records ∧
      (runMachine (svcDelayedData records) fuel).2 = [0, 1, 2, 3, 4]) ∧
    (EmptyState (runMachine svcAlwaysEmpty fuel).1 ∧
      (runMachine svcAlwaysEmpty fuel).2 = [0, 1, 2, 3, 4] ∧
      (runMachine svcAlwaysEmpty fuel).2.length = MAX_RETRIES ∧
      shouldRetry (runMachine svcAlwaysEmpty fuel).1 = false) := by
  obtain ⟨k, hk⟩ := Nat.le.dest hfuel
  subst hk
  rw [Nat.add_comm 6 k]
  have hdelay : runMachine (svcDelayedData records) (k + 6) =
      pollLoop (svcDelayedData records) (k + 1) 6
        (applyResponse ⟨[], false, true, 4⟩ true records) [0, 1, 2, 3, 4] := rfl
  have happly : applyResponse ⟨[], false, true, 4⟩ true records =
      (⟨records, false, false, 4⟩ : MachineState) := by
    unfold applyResponse
    simp [hne]
  have hstop : pollLoop (svcDelayedData records) (k + 1) 6
      (⟨records, false, false, 4⟩ : MachineState) [0, 1, 2, 3, 4] =
      ((⟨records, false, false, 4⟩ : MachineState), [0, 1, 2, 3, 4]) := rfl
  have hempty : runMachine svcAlwaysEmpty (k + 6) =
      ((⟨[], false, false, 5⟩ : MachineState), [0, 1, 2, 3, 4]) := rfl
  refine ⟨?_, ?_⟩
  · rw [hdelay, happly, hstop]
    exact ⟨⟨rfl, rfl, rfl⟩, rfl⟩
  · rw [hempty]
    exact ⟨⟨rfl, rfl, rfl⟩, rfl, rfl, rfl⟩

/-- Witness for C2 at `records = [42]`, `fuel = 7`. -/
theorem acquisition_controller_spec_witness :
    ReadyState (runMachine (svcDelayedData [42]) 7).1 [42] ∧
      EmptyState (runMachine svcAlwaysEmpty 7).1 :=
  ⟨(acquisition_controller_spec [42] (by decide) 7 (by norm_num)).1.1,
   (acquisition_controller_spec [42] (by decide) 7 (by norm_num)).2.1⟩

/-- C9: the time bucket of a canonical record is determined by the fixed
partition of the hour: `[0,6) → Night`, `[6,12) → Morning`,
`[12,18) → Afternoon`, `[18,24) → Evening`. -/
theorem time_bucket_partition (h m : ℕ) :
    (h < 6 → timeBucket (some ⟨h, m⟩) = "Night (00–06)") ∧
    (6 ≤ h → h < 12 → timeBucket (some ⟨h, m⟩) = "Morning (06–12)") ∧
    (12 ≤ h → h < 18 → timeBucket (some ⟨h, m⟩) = "Afternoon (12–18)") ∧
    (18 ≤ h → h < 24 → timeBucket (some ⟨h, m⟩) = "Evening (18–24)") := by
  refine ⟨?_, ?_, ?_, ?_⟩ <;> intros <;> simp only [timeBucket] <;> split_ifs <;>
    first | rfl | omega

/-- Witness for C9 at hours 3, 8, 14 and 20. -/
theorem time_bucket_partition_witness :
    timeBucket (some ⟨3, 0⟩) = "Night (00–06)" ∧
    timeBucket (some ⟨8, 0⟩) = "Morning (06–12)" ∧
    timeBucket (some ⟨14, 0⟩) = "Afternoon (12–18)" ∧
    timeBucket (some ⟨20, 0⟩) = "Evening (18–24)" :=
  ⟨(time_bucket_partition 3 0).1 (by norm_num),
   (time_bucket_partition 8 0).2.1 (by norm_num) (by norm_num),
   (time_bucket_partition 14 0).2.2.1 (by norm_num) (by norm_num),
   (time_bucket_partition 20 0).2.2.2 (by norm_num) (by norm_num)⟩

/-- C10: `timeBucket` returns the `"Unknown"` fallback exactly on a null time
object; every record surviving normalization has a parsed time, so its bucket
is one of the four labels, and `"Unknown"` never appears among the labels of
the time-bucket rollup of a canonical record set. -/
theorem unknown_bucket_unreachable :
    timeBucket none = "Unknown" ∧
    (∀ t : TimeOfDay, timeBucket (some t) ∈ bucketOrder ∧ timeBucket (some t) ≠ "Unknown") ∧
    (∀ raw : List RawRecord, ∀ d ∈ normalize raw,
      d.parsedTime.isSome = true ∧ d.timeBucket ≠ "Unknown") ∧
    (∀ data : List FinanceDashboard.CanonicalRecord,
      "Unknown" ∉ (buildTimeBuckets data).map Prod.fst) := by
  refine ⟨rfl, fun t => ⟨timeBucket_some_mem t, timeBucket_some_ne_unknown t⟩, ?_, ?_⟩
  · intro raw d hd
    unfold normalize at hd
    obtain ⟨hmem, hkeep⟩ := List.mem_filter.mp hd
    obtain ⟨r, _, rfl⟩ := List.mem_map.mp hmem
    rw [Bool.and_eq_true] at hkeep
    have hsome : r.parsedTimestamp.isSome = true := hkeep.2
    obtain ⟨p, hp⟩ := Option.isSome_iff_exists.mp hsome
    refine ⟨by simp [augmentRecord, hp], ?_⟩
    show FinanceDashboard.timeBucket (r.parsedTimestamp.map ParsedTime.time) ≠ "Unknown"
    rw [hp]
    exact timeBucket_some_ne_unknown p.time
  · intro data hmem
    rw [buildTimeBuckets_eq] at hmem
    unfold bucketTarget at hmem
    rw [List.map_map] at hmem
    obtain ⟨b, hb, hbeq⟩ := List.mem_map.mp hmem
    have hb' : b ∈ bucketOrder := List.mem_of_mem_filter hb
    have : (Prod.fst ∘ fun b => (b, bucketTotal data b)) b = b := rfl
    rw [this] at hbeq
    subst hbeq
    revert hb'
    decide

/-- Witness for C10: a normalized record and a concrete rollup. -/
theorem unknown_bucket_unreachable_witness :
    ((augmentRecord rawValid).parsedTime.isSome = true ∧
      (augmentRecord rawValid).timeBucket ≠ "Unknown") ∧
    "Unknown" ∉ (buildTimeBuckets singleMorningData).map Prod.fst :=
  ⟨unknown_bucket_unreachable.2.2.1 [rawValid] (augmentRecord rawValid) (by decide),
   unknown_bucket_unreachable.2.2.2 singleMorningData⟩

/-- C3 counterexample: for a canonical set with one Morning record the
time-bucket rollup has a single entry, not one entry per bucket with absent
buckets reported as total `0`. -/
theorem time_bucket_rollup_cex :
    (buildTimeBuckets singleMorningData).map Prod.fst = ["Morning (06–12)"] ∧
    (buildTimeBuckets singleMorningData).length ≠ 4 := by
  constructor <;> decide

/-- C3 (amended): for every canonical record list the time-bucket rollup has
one entry per bucket that occurs in the data, in the fixed order Night,
Morning, Afternoon, Evening (absent buckets are omitted rather than reported
with total `0`); its label sequence is a sublist of the fixed order, so it is
never ordered by value. -/
theorem time_bucket_rollup_present_only (data : List FinanceDashboard.CanonicalRecord) :
    buildTimeBuckets data = bucketTarget data ∧
    List.Sublist ((buildTimeBuckets data).map Prod.fst) bucketOrder := by
  refine ⟨buildTimeBuckets_eq data, ?_⟩
  rw [buildTimeBuckets_eq]
  unfold bucketTarget
  rw [List.map_map]
  have : (List.map (Prod.fst ∘ fun b => (b, bucketTotal data b))
      (bucketOrder.filter (fun b => decide (b ∈ data.map CanonicalRecord.timeBucket)))) =
      bucketOrder.filter (fun b => decide (b ∈ data.map CanonicalRecord.timeBucket)) :=
    List.map_id _
  rw [this]
  exact List.filter_sublist _

/-- C7: the derivation sequence of `initializeDashboard` leaves the canonical
record set unchanged, and every builder receives and reads the same original
canonical set: all in-place sorts act on fresh arrays. -/
theorem derivations_preserve_canonical_set (filt : TableFilter)
    (data : List FinanceDashboard.CanonicalRecord) :
    (deriveViews filt data).2 = data ∧
    (deriveViews filt data).1 =
      { pieRollup := (buildPie data).1, pieGrandTotal := (buildPie data).2,
        lineRollup := buildLine data, bucketRollup := buildTimeBuckets data,
        scatterCategories := buildScatterCategories data,
        rankingTable := buildTopAndLowTables filt data,
        anomalyResult := buildAnomalies data } :=
  ⟨rfl, rfl⟩

/-- C8: every aggregation, ranking and anomaly function is a total function
of the canonical record list, and on the empty list every rollup and ranking
is empty and the anomaly result reports zero anomalies. -/
theorem total_on_empty :
    buildPie [] = ([], 0) ∧ buildLine [] = [] ∧ buildTimeBuckets [] = [] ∧
    buildScatterCategories [] = [] ∧ (∀ c, scatterPoints c [] = []) ∧
    (∀ filt, buildTopAndLowTables filt [] = []) ∧
    buildAnomalies [] = { anomalies := [], count := 0, top := [] } := by
  refine ⟨rfl, rfl, rfl, rfl, ?_, ?_, rfl⟩
  · rintro (_ | c) <;> rfl
  · rintro (_ | _) <;> rfl

theorem length_filter_add_length_filter_not {α : Type} (l : List α) (p q : α → Bool)
    (hpq : ∀ a ∈ l, q a = !p a) :
    (l.filter p).length + (l.filter q).length = l.length := by
  induction l with
  | nil => rfl
  | cons a rest ih =>
    have ha := hpq a (List.mem_cons_self a rest)
    have ih' := ih (fun x hx => hpq x (List.mem_cons_of_mem a hx))
    cases hp : p a <;> simp [List.filter_cons, hp, ha, hp ▸ ha] <;> omega

/-- C1: the anomaly detector's result agrees with the reference: the filter
condition is exactly `amount > mean + 3·sd` (sample standard deviation, over
the reals), the anomalies are a reordering of the matching records sorted
descending by amount, `count` is their full number, `top` is at most the
first 3, and a zero standard deviation (zero or one record, or all amounts
equal) yields a zero anomaly count. -/
theorem anomaly_detector_spec (data : List FinanceDashboard.CanonicalRecord) :
    (buildAnomalies data).count = (buildAnomalies data).anomalies.length ∧
    (buildAnomalies data).top = (buildAnomalies data).anomalies.take 3 ∧
    (buildAnomalies data).top.length ≤ 3 ∧
    List.Perm (buildAnomalies data).anomalies (data.filter (exceedsThreshold data)) ∧
    (∀ d, exceedsThreshold data d = true ↔
      (meanAmount data : ℝ) + 3 * Real.sqrt ((sampleVariance data : ℚ) : ℝ)
        < (d.amount : ℝ)) ∧
    List.Pairwise (fun a b => b.amount ≤ a.amount) (buildAnomalies data).anomalies ∧
    (sampleVariance data = 0 → (buildAnomalies data).count = 0) := by
  refine ⟨rfl, rfl, List.length_take_le _ _, jsStableSortBy_perm _ _,
    fun d => exceedsThreshold_iff data d, ?_, ?_⟩
  · have h := jsStableSortBy_pairwise (fun d : FinanceDashboard.CanonicalRecord => -d.amount)
      (data.filter (exceedsThreshold data))
    exact h.imp (fun hle => neg_le_neg_iff.mp hle)
  · intro hvar
    show (jsStableSortBy (fun d : FinanceDashboard.CanonicalRecord => -d.amount)
      (data.filter (exceedsThreshold data))).length = 0
    rw [jsStableSortBy_length, List.length_eq_zero, List.filter_eq_nil_iff]
    intro d hd
    rw [exceedsThreshold_of_var_zero data hvar d hd]
    simp

/-- Witness for C1 on a zero-variance set (two equal amounts). -/
theorem anomaly_detector_spec_witness : (buildAnomalies equalAmountsData).count = 0 :=
  (anomaly_detector_spec equalAmountsData).2.2.2.2.2.2
    (by norm_num [sampleVariance, meanAmount, amounts, equalAmountsData])

/-- C4 counterexample: a record whose amount coerces to `+Infinity` (not
finite) survives normalization, because the filter only rejects `NaN`
amounts; the claim says every non-finite amount is discarded. -/
theorem normalizer_cex :
    normalize [rawInfinite] = [augmentRecord rawInfinite] ∧
    (augmentRecord rawInfinite).amountNum.isFinite = false ∧
    (normalize [rawInfinite]).length = 1 := by
  refine ⟨rfl, rfl, rfl⟩

/-- C4 (amended): the normalizer discards exactly the records whose
timestamp is unparseable or whose amount coerces to `NaN` (amounts coercing
to an infinity are kept): the output is the augmentation of the kept records
in order, its length is the input length minus the number of discarded
records, and each surviving record keeps its identifier, coerced amount and
parsed timestamp. -/
theorem normalizer_discards_nan (raw : List RawRecord) :
    normalize raw = (raw.filter
        (fun r => !r.amountCoerced.isNaN && r.parsedTimestamp.isSome)).map augmentRecord ∧
    (normalize raw).length = raw.length -
      (raw.filter (fun r => r.amountCoerced.isNaN || !r.parsedTimestamp.isSome)).length ∧
    (∀ d ∈ normalize raw, d.amountNum.isNaN = false ∧ d.parsedTime.isSome = true ∧
      ∃ r ∈ raw, d = augmentRecord r ∧ d.transaction_id = r.transaction_id ∧
        d.amountNum = r.amountCoerced ∧ d.parsedTime = r.parsedTimestamp) := by
  have hkeep : normalize raw = (raw.filter
      (fun r => !r.amountCoerced.isNaN && r.parsedTimestamp.isSome)).map augmentRecord := by
    unfold normalize
    rw [List.filter_map]
    rfl
  refine ⟨hkeep, ?_, ?_⟩
  · rw [hkeep, List.length_map]
    have hsplit := length_filter_add_length_filter_not raw
      (fun r => !r.amountCoerced.isNaN && r.parsedTimestamp.isSome)
      (fun r => r.amountCoerced.isNaN || !r.parsedTimestamp.isSome)
      (fun r _ => by cases hr : r.amountCoerced.isNaN <;>
        cases hp : r.parsedTimestamp.isSome <;> simp [hr, hp])
    omega
  · intro d hd
    rw [hkeep] at hd
    obtain ⟨r, hr, rfl⟩ := List.mem_map.mp hd
    obtain ⟨hrmem, hcond⟩ := List.mem_filter.mp hr
    rw [Bool.and_eq_true, Bool.not_eq_true'] at hcond
    exact ⟨hcond.1, hcond.2, r, hrmem, rfl, rfl, rfl, rfl⟩

/-- Witness for C4 on a valid raw record. -/
theorem normalizer_discards_nan_witness :
    (augmentRecord rawValid).amountNum.isNaN = false ∧
      (augmentRecord rawValid).parsedTime.isSome = true :=
  ⟨((normalizer_discards_nan [rawValid]).2.2 (augmentRecord rawValid)
      (by rw [show normalize [rawValid] = [augmentRecord rawValid] from rfl]
          exact List.mem_singleton.mpr rfl)).1,
   ((normalizer_discards_nan [rawValid]).2.2 (augmentRecord rawValid)
      (by rw [show normalize [rawValid] = [augmentRecord rawValid] from rfl]
          exact List.mem_singleton.mpr rfl)).2.1⟩

theorem c5_mean : meanAmount c5data = 208 := by
  norm_num [meanAmount, amounts, c5data]

theorem c5_var : sampleVariance c5data = 196020 := by
  rw [sampleVariance, if_neg (by norm_num [c5data])]
  rw [c5_mean]
  norm_num [amounts, c5data]

theorem c5_no_anomalies : c5data.filter (exceedsThreshold c5data) = [] := by
  rw [List.filter_eq_nil_iff]
  intro d hd
  fin_cases hd <;>
    · rw [Bool.not_eq_true, exceedsThreshold, c5_mean, c5_var]
      norm_num

/-- C5 counterexample: on the amounts `[10, 10, 10, 10, 1000]` the detector
reports zero anomalies and an empty `top`, so the outlier is not included
and the count is not at least 1. -/
theorem dominant_outlier_cex :
    (buildAnomalies c5data).count = 0 ∧ c5outlier ∉ (buildAnomalies c5data).top := by
  constructor
  · show (jsStableSortBy (fun d : FinanceDashboard.CanonicalRecord => -d.amount)
      (c5data.filter (exceedsThreshold c5data))).length = 0
    rw [c5_no_anomalies]
    rfl
  · show c5outlier ∉ (jsStableSortBy (fun d : FinanceDashboard.CanonicalRecord => -d.amount)
      (c5data.filter (exceedsThreshold c5data))).take 3
    rw [c5_no_anomalies]
    simp [jsStableSortBy, rankedPairs]

/-- C5 (amended): on the amounts `[10, 10, 10, 10, 1000]` the detector
reports `count = 0` and an empty `top`: the threshold
`mean + 3·sd = 208 + 3·√196020 ≈ 1536.17` exceeds `1000`, so the dominant
record is below the threshold and is not flagged. -/
theorem dominant_outlier_below_threshold :
    (buildAnomalies c5data).count = 0 ∧ (buildAnomalies c5data).top = [] ∧
    ((1000 : ℝ) < (meanAmount c5data : ℝ) +
      3 * Real.sqrt ((sampleVariance c5data : ℚ) : ℝ)) := by
  refine ⟨dominant_outlier_cex.1, ?_, ?_⟩
  · show (jsStableSortBy (fun d : FinanceDashboard.CanonicalRecord => -d.amount)
      (c5data.filter (exceedsThreshold c5data))).take 3 = []
    rw [c5_no_anomalies]
    rfl
  · rw [c5_mean, c5_var]
    have h264 : (264 : ℝ) < Real.sqrt (((196020 : ℚ) : ℝ)) := by
      rw [show (((196020 : ℚ)) : ℝ) = 196020 by norm_num]
      rw [show (264 : ℝ) = |264| by rw [abs_of_nonneg]; norm_num]
      refine (Real.lt_sqrt (by norm_num)).mpr ?_
      · norm_num
    have : ((208 : ℚ) : ℝ) = 208 := by norm_num
    rw [this]
    nlinarith [h264]

/-- C6: the ranking selector returns at most 10 entries (fewer when the list
is shorter), non-increasing by amount for Highest and non-decreasing for
Lowest; the sort is stable — the sorted pairs carry the original positions
(a permutation of the enumerated input) and ties between equal amounts keep
the original position order — and re-invoking it on the unchanged list gives
an identical output. -/
theorem ranking_selector_spec (data : List FinanceDashboard.CanonicalRecord) :
    ((buildTopAndLowTables .highest data).length = min 10 data.length ∧
     (buildTopAndLowTables .lowest data).length = min 10 data.length) ∧
    List.Pairwise (fun a b => b.amount ≤ a.amount) (buildTopAndLowTables .highest data) ∧
    List.Pairwise (fun a b => a.amount ≤ b.amount) (buildTopAndLowTables .lowest data) ∧
    (buildTopAndLowTables .highest data =
        ((rankedPairs (fun d => -d.amount) data).map Prod.snd).take 10 ∧
      List.Pairwise
        (fun p q : ℕ × FinanceDashboard.CanonicalRecord =>
          p.2.amount = q.2.amount → p.1 ≤ q.1)
        (rankedPairs (fun d => -d.amount) data) ∧
      List.Perm (rankedPairs (fun d => -d.amount) data) data.enum) ∧
    (buildTopAndLowTables .lowest data =
        ((rankedPairs (fun d => d.amount) data).map Prod.snd).take 10 ∧
      List.Pairwise
        (fun p q : ℕ × FinanceDashboard.CanonicalRecord =>
          p.2.amount = q.2.amount → p.1 ≤ q.1)
        (rankedPairs (fun d => d.amount) data) ∧
      List.Perm (rankedPairs (fun d => d.amount) data) data.enum) ∧
    (∀ filt, buildTopAndLowTables filt data = buildTopAndLowTables filt data) := by
  refine ⟨⟨?_, ?_⟩, ?_, ?_, ⟨rfl, ?_, rankedPairs_perm _ _⟩,
    ⟨rfl, ?_, rankedPairs_perm _ _⟩, fun _ => rfl⟩
  · show ((jsStableSortBy (fun d : FinanceDashboard.CanonicalRecord => -d.amount)
      data).take 10).length = min 10 data.length
    rw [List.length_take, jsStableSortBy_length]
  · show ((jsStableSortBy (fun d : FinanceDashboard.CanonicalRecord => d.amount)
      data).take 10).length = min 10 data.length
    rw [List.length_take, jsStableSortBy_length]
  · have h := jsStableSortBy_pairwise (fun d : FinanceDashboard.CanonicalRecord => -d.amount) data
    exact List.Pairwise.sublist (List.take_sublist _ _) (h.imp fun hle => neg_le_neg_iff.mp hle)
  · have h := jsStableSortBy_pairwise (fun d : FinanceDashboard.CanonicalRecord => d.amount) data
    exact List.Pairwise.sublist (List.take_sublist _ _) h
  · exact (rankedPairs_tie _ _).imp (fun htie heq => htie (by rw [heq]))
  · exact (rankedPairs_tie _ _).imp (fun htie heq => htie heq)

/-- Witness for C6 on a set with an amount tie. -/
theorem ranking_selector_spec_witness :
    List.Pairwise (fun a b => b.amount ≤ a.amount)
      (buildTopAndLowTables .highest rankWitnessData) :=
  (ranking_selector_spec rankWitnessData).2.1

end FinanceDashboard
